import Mathlib

/-!
Verification development for the stock-aware menu retrieval and
substitution-resolution engine (FastAPI backend, `api.py`, plus the
ingestion script `ingest_data.py`).

Modelling conventions for the shallow embedding:
* Python `float` values are modelled as `ℚ` (the claims under scrutiny only
  involve comparisons and exact sums, never floating-point rounding).
* Python dictionaries with string keys are modelled as association lists
  (`List (String × _)`) with first-match lookup and in-place update, matching
  `dict.get` / `dict.__setitem__`.
* `dict.get(k)` on a possibly-absent key returns `Option`; Python `None` is
  `Option.none`.  Functions that Python may call with `None` arguments
  (e.g. `InventoryManager.get_quantity`) take `Option String`.
* `datetime` values produced by `strptime(_, "%m/%d/%Y")` always have their
  time-of-day at midnight, and `today` in `reload_inventory` is truncated to
  midnight, so the comparison `exp_date < today` is a pure date comparison:
  dates are modelled as integer day ordinals, and a row stores the result of
  the (external, stdlib) parse attempt as `Option ℤ` (`none` = `ValueError`).
* Python's `sorted` is a stable sort by the given key; it is modelled as
  `List.insertionSort` with the reflexive total preorder induced by the key,
  which is sorted, a permutation, and stable — the three properties that
  determine the output of `sorted` uniquely.
-/

namespace IngredientApp

/-- Lookup in a string-keyed dictionary modelled as an association list
(Python `d.get(k)` / `d[k]`). -/
def dictGet (k : String) : List (String × ℚ) → Option ℚ
  | [] => none
  | (k₁, v) :: rest => if k₁ = k then some v else dictGet k rest

/-- Update / insert in a string-keyed dictionary (Python `d[k] = v`). -/
def dictSet (k : String) (v : ℚ) : List (String × ℚ) → List (String × ℚ)
  | [] => [(k, v)]
  | (k₁, v₁) :: rest => if k₁ = k then (k, v) :: rest else (k₁, v₁) :: dictSet k v rest

/-- The module-level constant `DEFAULT_LOW_THRESHOLD = 15.0` in `api.py`. -/
def DEFAULT_LOW_THRESHOLD : ℚ := 15

/-- The mutable state read by the stock checks: the aggregated
`InventoryManager.inventory_levels` dictionary together with the
module-level `INGREDIENT_THRESHOLDS` dictionary loaded at startup. -/
structure Inventory where
  inventory_levels : List (String × ℚ)
  thresholds : List (String × ℚ)

/-- `InventoryManager.get_quantity`: `self.inventory_levels.get(ingredient_name, 0.0)`.
The argument is `Option String` because `check_stock_logic` passes
`sub.get("trigger_ingredient")`, which may be Python `None`; `dict.get(None, 0.0)`
on a string-keyed dictionary returns the default `0.0`. -/
def get_quantity (inv : Inventory) (ingredient_name : Option String) : ℚ :=
  match ingredient_name with
  | none => 0
  | some n => (dictGet n inv.inventory_levels).getD 0

/-- `InventoryManager.get_threshold`: `INGREDIENT_THRESHOLDS.get(ingredient_name, DEFAULT_LOW_THRESHOLD)`. -/
def get_threshold (inv : Inventory) (ingredient_name : Option String) : ℚ :=
  match ingredient_name with
  | none => DEFAULT_LOW_THRESHOLD
  | some n => (dictGet n inv.thresholds).getD DEFAULT_LOW_THRESHOLD

/-- `InventoryManager.is_low`: `self.get_quantity(name) < self.get_threshold(name)`. -/
def is_low (inv : Inventory) (ingredient_name : Option String) : Bool :=
  get_quantity inv ingredient_name < get_threshold inv ingredient_name

/-- `InventoryManager.is_out`: `self.get_quantity(name) <= 0`. -/
def is_out (inv : Inventory) (ingredient_name : Option String) : Bool :=
  get_quantity inv ingredient_name ≤ 0

/-- One entry of an item's `suggested_substitutions` list: a JSON object read
with `dict.get`, so every field is optional. -/
structure SubRule where
  trigger_ingredient : Option String
  suggest_item_name : Option String
  rag_justification : Option String
deriving DecidableEq, Repr

/-- The `SubstitutionSuggestion` pydantic model. -/
structure SubstitutionSuggestion where
  original_item : String
  suggested_item : String
  reason : String
deriving DecidableEq, Repr

/-- A parsed menu candidate dictionary as built by `find_menu_candidates`
and consumed by `check_stock_logic` / `rank_results`. -/
structure MenuCandidate where
  id : String
  name : String
  description : String
  price : ℚ
  score : ℚ
  suggested_substitutions : List SubRule
  substitution : Option SubstitutionSuggestion
  availability_status : String
deriving DecidableEq, Repr

/-- Python f-string conversion of an `Optional[str]`:
`f"{sub.get('suggest_item_name')}"` renders `None` as the string `"None"`. -/
def pyFormat : Option String → String
  | none => "None"
  | some s => s

/-- The first scan of `check_stock_logic` (step 1, lines 247-255 of `api.py`):
fold over the rules carrying `(trigger_status, active_trigger_name)`;
an `Out` trigger records and breaks, a `Low` trigger records and continues. -/
def scanTriggers (inv : Inventory) : List SubRule → String × Option String → String × Option String
  | [], st => st
  | sub :: rest, st =>
    if is_out inv sub.trigger_ingredient then
      ("Out of Stock", sub.trigger_ingredient)
    else if is_low inv sub.trigger_ingredient then
      scanTriggers inv rest ("Low Stock", sub.trigger_ingredient)
    else
      scanTriggers inv rest st

/-- `check_stock_logic` (lines 240-279 of `api.py`): run the trigger scan;
return unchanged on `"In Stock"`; otherwise re-scan for the first rule whose
trigger equals the remembered trigger and build a `SubstitutionSuggestion`
from it, falling back to the recorded bad status when no rule matches. -/
def check_stock_logic (inv : Inventory) (item : MenuCandidate) : MenuCandidate :=
  let st := scanTriggers inv item.suggested_substitutions ("In Stock", none)
  if st.1 = "In Stock" then item
  else
    match item.suggested_substitutions.find? (fun sub => sub.trigger_ingredient = st.2) with
    | some sub =>
      { item with
          substitution := some
            { original_item := item.name
              suggested_item := pyFormat sub.suggest_item_name
              reason := sub.rag_justification.getD "Better availability" }
          availability_status := "Substituted" }
    | none => { item with availability_status := st.1 }

/-- The `status_priority` table inside `rank_results` (`dict.get(status, 99)`
default for unknown strings). -/
def status_priority (s : String) : ℕ :=
  if s = "In Stock" then 0
  else if s = "Substituted" then 1
  else if s = "Low Stock" then 2
  else if s = "Out of Stock" then 3
  else 99

/-- The `sort_key` closure of `rank_results`: the pair
`(status_priority.get(availability_status, 99), score)`. -/
def sort_key (item : MenuCandidate) : ℕ × ℚ :=
  (status_priority item.availability_status, item.score)

/-- Python tuple comparison on the sort key: lexicographic, first component
strict, ties broken by the second component. -/
def keyLe (a b : MenuCandidate) : Prop :=
  (sort_key a).1 < (sort_key b).1 ∨
    ((sort_key a).1 = (sort_key b).1 ∧ (sort_key a).2 ≤ (sort_key b).2)

instance : DecidableRel keyLe := fun a b => by
  unfold keyLe; infer_instance

instance : IsTotal MenuCandidate keyLe where
  total a b := by
    rcases lt_trichotomy (sort_key a).1 (sort_key b).1 with h | h | h
    · exact Or.inl (Or.inl h)
    · rcases le_total (sort_key a).2 (sort_key b).2 with h2 | h2
      · exact Or.inl (Or.inr ⟨h, h2⟩)
      · exact Or.inr (Or.inr ⟨h.symm, h2⟩)
    · exact Or.inr (Or.inl h)

instance : IsTrans MenuCandidate keyLe where
  trans a b c hab hbc := by
    rcases hab with h1 | ⟨h1, h1q⟩ <;> rcases hbc with h2 | ⟨h2, h2q⟩
    · exact Or.inl (h1.trans h2)
    · exact Or.inl (h2 ▸ h1)
    · exact Or.inl (h1 ▸ h2)
    · exact Or.inr ⟨h1.trans h2, h1q.trans h2q⟩

/-- `rank_results` (lines 281-290 of `api.py`): `sorted(items, key=sort_key)`.
Python `sorted` is a stable sort; it is modelled as insertion sort over the
total preorder `keyLe`, which is stable for that ordering. -/
def rank_results (items : List MenuCandidate) : List MenuCandidate :=
  items.insertionSort keyLe

/-- The fields `find_menu_candidates` extracts from one search-backend hit
(document text, metadata, distance) before building the candidate dictionary. -/
structure RawMenuHit where
  id : String
  name : String
  description : String
  price : ℚ
  score : ℚ
  suggested_substitutions : List SubRule
deriving DecidableEq, Repr

/-- The candidate dictionary literal of `find_menu_candidates`
(lines 227-236 of `api.py`): `substitution = None`,
`availability_status = "In Stock"`. -/
def parseCandidate (r : RawMenuHit) : MenuCandidate :=
  { id := r.id
    name := r.name
    description := r.description
    price := r.price
    score := r.score
    suggested_substitutions := r.suggested_substitutions
    substitution := none
    availability_status := "In Stock" }

/-- `find_menu_candidates`, given the hits already returned by the external
search backend: parse each into a candidate dictionary. -/
def find_menu_candidates (hits : List RawMenuHit) : List MenuCandidate :=
  hits.map parseCandidate

/-- The `MenuItemResult` pydantic response model. -/
structure MenuItemResult where
  id : String
  name : String
  description : String
  price : ℚ
  score : ℚ
  substitution : Option SubstitutionSuggestion
  availability_status : String
deriving DecidableEq, Repr

/-- The projection at the end of `patron_search` building a `MenuItemResult`
from a ranked candidate. -/
def toMenuItemResult (c : MenuCandidate) : MenuItemResult :=
  { id := c.id
    name := c.name
    description := c.description
    price := c.price
    score := c.score
    substitution := c.substitution
    availability_status := c.availability_status }

/-- The `patron_search` endpoint (lines 372-397 of `api.py`), given the raw
hits from the search backend: parse → `check_stock_logic` each → filter out
`"Out of Stock"` → `rank_results` → project to `MenuItemResult`. -/
def patron_search (inv : Inventory) (hits : List RawMenuHit) : List MenuItemResult :=
  let checked := (find_menu_candidates hits).map (check_stock_logic inv)
  let available := checked.filter (fun item => item.availability_status ≠ "Out of Stock")
  (rank_results available).map toMenuItemResult

/-- One CSV row as seen by `InventoryManager.reload_inventory` after column
detection.  `qty` is the result of `float(row[qty_col])` (`none` when that
raises `ValueError`); `expParse` is the result of
`datetime.strptime(row[exp_col].strip(), "%m/%d/%Y")` as an integer day
ordinal (`none` when the parse raises `ValueError`, covering both invalid
and empty date strings).  The parse itself is the external stdlib call. -/
structure LotRow where
  name : String
  qty : Option ℚ
  expParse : Option ℤ
deriving DecidableEq, Repr

/-- The body of the row loop in `reload_inventory` (lines 104-127 of
`api.py`): skip the row when the expiration column exists, the date parsed,
and it is strictly before today (midnight-truncated); skip the row when the
quantity fails to parse; otherwise `totals[name] = totals.get(name, 0.0) + qty`. -/
def reloadStep (hasExpCol : Bool) (today : ℤ) (totals : List (String × ℚ)) (row : LotRow) :
    List (String × ℚ) :=
  if hasExpCol ∧ (match row.expParse with | some d => decide (d < today) | none => false) = true then
    totals
  else
    match row.qty with
    | none => totals
    | some q => dictSet row.name ((dictGet row.name totals).getD 0 + q) totals

/-- `InventoryManager.reload_inventory` on a successfully opened CSV: build
`totals` from the empty dictionary and replace `inventory_levels` wholesale. -/
def reload_inventory (hasExpCol : Bool) (today : ℤ) (rows : List LotRow) :
    List (String × ℚ) :=
  rows.foldl (reloadStep hasExpCol today) []

/-- Specification-side aggregate (for comparison with `reload_inventory`):
a lot row contributes to ingredient `n` iff it carries that name, its
quantity is numeric, and it is not provably expired — i.e. not
(expiration present, parseable, and strictly before the as-of date). -/
def specContribution (hasExpCol : Bool) (today : ℤ) (n : String) (row : LotRow) : ℚ :=
  if row.name = n ∧ ¬(hasExpCol ∧ ∃ d, row.expParse = some d ∧ d < today) then
    row.qty.getD 0
  else 0

/-- Specification-side aggregate: the sum of the contributions of all rows. -/
def specAggregate (hasExpCol : Bool) (today : ℤ) (rows : List LotRow) (n : String) : ℚ :=
  (rows.map (specContribution hasExpCol today n)).sum

/-- A metadata value stored in the vector-store collection: a string or a
number (the two kinds `ingest_data.py` writes). -/
inductive MVal where
  | str (s : String)
  | num (q : ℚ)
deriving DecidableEq, Repr

/-- A metadata dictionary, with Python `meta.get(k)` lookup. -/
def metaGet (k : String) : List (String × MVal) → Option MVal
  | [] => none
  | (k₁, v) :: rest => if k₁ = k then some v else metaGet k rest

/-- One row of `inventory_lots.csv` as read by `ingest_inventory`
(`ingest_data.py`, lines 92-108); `CurrentQuantity` is already parsed since
`float(row['CurrentQuantity'])` must succeed for ingestion to proceed. -/
structure InvCsvRow where
  LotID : String
  IngredientName : String
  Category : String
  CurrentQuantity : ℚ
  DefaultUnit : String
  ExpirationDate : String
deriving DecidableEq, Repr

/-- The metadata dictionary `ingest_inventory` stores for one lot row:
note the CamelCase keys. -/
def ingestMeta (r : InvCsvRow) : List (String × MVal) :=
  [("IngredientName", MVal.str r.IngredientName),
   ("Category", MVal.str r.Category),
   ("CurrentQuantity", MVal.num r.CurrentQuantity),
   ("DefaultUnit", MVal.str r.DefaultUnit),
   ("ExpirationDate", MVal.str r.ExpirationDate)]

/-- The `InventorySearchResult` pydantic response model. -/
structure InventorySearchResult where
  ingredient_name : String
  category : String
  current_quantity : ℚ
  unit : String
  score : ℚ
  status : String
deriving DecidableEq, Repr

/-- Pydantic validation of one `InventorySearchResult` construction in
`get_inventory`: `ingredient_name` must be a string (a Python `None` from
`meta.get("ingredient_name")` raises a `ValidationError`), `category` and
`unit` fall back to their `meta.get` defaults, and a non-string value in a
string field likewise fails validation. -/
def mkInventorySearchResult (name : Option MVal) (cat : Option MVal) (qty : ℚ)
    (unit : Option MVal) (score : ℚ) (status : String) : Option InventorySearchResult :=
  match name with
  | some (MVal.str n) =>
    match cat.getD (MVal.str "General") with
    | MVal.str c =>
      match unit.getD (MVal.str "units") with
      | MVal.str u =>
        some { ingredient_name := n, category := c, current_quantity := qty,
               unit := u, score := score, status := status }
      | _ => none
    | _ => none
  | _ => none

/-- The quantity `get_inventory` reads: `meta.get("current_quantity", 0.0)`;
a non-numeric stored value cannot arise from `ingest_inventory`, and the
absent-key case yields the default `0.0`. -/
def metaQty (m : List (String × MVal)) : ℚ :=
  match metaGet "current_quantity" m with
  | some (MVal.num q) => q
  | _ => 0

/-- The status computation shared by `get_inventory` and
`find_inventory_candidates`: `Out` at `qty <= 0`, else `Low` below the
ingredient's threshold, else `High`. -/
def invStatus (inv : Inventory) (name : Option String) (qty : ℚ) : String :=
  if qty ≤ 0 then "Out"
  else if qty < get_threshold inv name then "Low"
  else "High"

/-- The string carried by an optional metadata value, if it is one
(`get_threshold` receives the raw `meta.get("ingredient_name")`, which is a
string or Python `None`). -/
def mvalStr : Option MVal → Option String
  | some (MVal.str s) => some s
  | _ => none

/-- The loop of the `get_inventory` endpoint (lines 334-370 of `api.py`)
over `collection.get()` metadata records, carrying the `seen_ingredients`
set and the accumulated output.  A pydantic `ValidationError` aborts the
whole request, modelled by returning `none`. -/
def getInventoryLoop (inv : Inventory) : List (List (String × MVal)) →
    List (Option MVal) → List InventorySearchResult → Option (List InventorySearchResult)
  | [], _, out => some out
  | m :: rest, seen, out =>
    let name := metaGet "ingredient_name" m
    if name ∈ seen then getInventoryLoop inv rest seen out
    else
      let qty := metaQty m
      let status := invStatus inv (mvalStr name) qty
      match mkInventorySearchResult name (metaGet "category" m) qty
          (metaGet "unit" m) 1 status with
      | none => none
      | some r => getInventoryLoop inv rest (name :: seen) (out ++ [r])

/-- The `get_inventory` endpoint, given the metadata records returned by
`collection.get()`. -/
def get_inventory (inv : Inventory) (metas : List (List (String × MVal))) :
    Option (List InventorySearchResult) :=
  getInventoryLoop inv metas [] []

/-! Helper lemmas about the trigger scan. -/

theorem scanTriggers_break (inv : Inventory) (sub : SubRule) (rest : List SubRule)
    (st : String × Option String) (h : is_out inv sub.trigger_ingredient = true) :
    scanTriggers inv (sub :: rest) st = ("Out of Stock", sub.trigger_ingredient) := by
  simp [scanTriggers, h]

theorem scanTriggers_find_out (inv : Inventory) :
    ∀ (subs : List SubRule) (st : String × Option String) (r : SubRule),
      subs.find? (fun s => is_out inv s.trigger_ingredient) = some r →
      scanTriggers inv subs st = ("Out of Stock", r.trigger_ingredient)
  | [], st, r => by intro h; simp at h
  | sub :: rest, st, r => by
    intro h
    cases hout : is_out inv sub.trigger_ingredient with
    | true =>
      simp only [List.find?_cons, hout] at h
      cases h
      exact scanTriggers_break inv sub rest st hout
    | false =>
      simp only [List.find?_cons, hout] at h
      simp only [scanTriggers, hout]
      cases hlow : is_low inv sub.trigger_ingredient with
      | true =>
        simp only [hlow, Bool.false_eq_true, if_false, if_true]
        exact scanTriggers_find_out inv rest _ r h
      | false =>
        simp only [hlow, Bool.false_eq_true, if_false]
        exact scanTriggers_find_out inv rest st r h

theorem scanTriggers_eq_or_mem (inv : Inventory) :
    ∀ (subs : List SubRule) (st : String × Option String),
      scanTriggers inv subs st = st ∨
        ∃ sub ∈ subs, (scanTriggers inv subs st).2 = sub.trigger_ingredient
  | [], st => Or.inl rfl
  | sub :: rest, st => by
    cases hout : is_out inv sub.trigger_ingredient with
    | true =>
      right
      exact ⟨sub, List.mem_cons_self sub rest,
        by rw [scanTriggers_break inv sub rest st hout]⟩
    | false =>
      simp only [scanTriggers, hout, Bool.false_eq_true, if_false]
      cases hlow : is_low inv sub.trigger_ingredient with
      | true =>
        simp only [hlow, if_true]
        rcases scanTriggers_eq_or_mem inv rest ("Low Stock", sub.trigger_ingredient) with
          h | ⟨s, hs, h⟩
        · exact Or.inr ⟨sub, List.mem_cons_self sub rest, by rw [h]⟩
        · exact Or.inr ⟨s, List.mem_cons_of_mem sub hs, h⟩
      | false =>
        simp only [hlow, Bool.false_eq_true, if_false]
        rcases scanTriggers_eq_or_mem inv rest st with h | ⟨s, hs, h⟩
        · exact Or.inl h
        · exact Or.inr ⟨s, List.mem_cons_of_mem sub hs, h⟩

theorem scanTriggers_all_clear (inv : Inventory) :
    ∀ (subs : List SubRule) (st : String × Option String),
      (∀ s ∈ subs, is_out inv s.trigger_ingredient = false ∧
        is_low inv s.trigger_ingredient = false) →
      scanTriggers inv subs st = st
  | [], st, _ => rfl
  | sub :: rest, st, h => by
    obtain ⟨hout, hlow⟩ := h sub (List.mem_cons_self sub rest)
    simp only [scanTriggers, hout, hlow, Bool.false_eq_true, if_false]
    exact scanTriggers_all_clear inv rest st
      (fun s hs => h s (List.mem_cons_of_mem sub hs))

/-- C5: `is_low` holds iff the live quantity is strictly below the resolved
threshold (so it is false at exact equality), `is_out` holds iff the live
quantity is at most zero, and a name absent from the tracked state — or a
missing (`None`) trigger name — has quantity `0` and therefore resolves as
out of stock. -/
theorem stock_predicates_spec (inv : Inventory) (n : Option String) :
    (is_low inv n = true ↔ get_quantity inv n < get_threshold inv n) ∧
    (get_quantity inv n = get_threshold inv n → is_low inv n = false) ∧
    (is_out inv n = true ↔ get_quantity inv n ≤ 0) ∧
    (∀ s, n = some s → dictGet s inv.inventory_levels = none →
      get_quantity inv n = 0 ∧ is_out inv n = true) ∧
    (n = none → get_quantity inv n = 0 ∧ is_out inv n = true) := by
  refine ⟨by simp [is_low], ?_, by simp [is_out], ?_, ?_⟩
  · intro h
    simp [is_low, h]
  · rintro s rfl hnone
    have hq : get_quantity inv (some s) = 0 := by simp [get_quantity, hnone]
    exact ⟨hq, by simp [is_out, hq]⟩
  · rintro rfl
    exact ⟨rfl, by simp [is_out, get_quantity]⟩

/-- Concrete instantiation of `stock_predicates_spec`: an ingredient at
exactly its threshold is not low, and an untracked ingredient is out. -/
theorem stock_predicates_spec_witness :
    is_low ⟨[("Flour", 15)], [("Flour", 15)]⟩ (some "Flour") = false ∧
    is_out ⟨[("Flour", 15)], [("Flour", 15)]⟩ (some "Sugar") = true :=
  ⟨(stock_predicates_spec ⟨[("Flour", 15)], [("Flour", 15)]⟩ (some "Flour")).2.1 (by decide),
   ((stock_predicates_spec ⟨[("Flour", 15)], [("Flour", 15)]⟩ (some "Sugar")).2.2.2.1
      "Sugar" rfl (by decide)).2⟩

/-- Helper: when the scan records a bad status and some rule matches the
remembered trigger, `check_stock_logic` takes the substitution branch. -/
theorem check_stock_eq_subst (inv : Inventory) (item : MenuCandidate)
    (status : String) (act : Option String) (r : SubRule)
    (hscan : scanTriggers inv item.suggested_substitutions ("In Stock", none) = (status, act))
    (hstat : status ≠ "In Stock")
    (hfind : item.suggested_substitutions.find? (fun sub => sub.trigger_ingredient = act) = some r) :
    check_stock_logic inv item =
      { item with
          substitution := some
            { original_item := item.name
              suggested_item := pyFormat r.suggest_item_name
              reason := r.rag_justification.getD "Better availability" }
          availability_status := "Substituted" } := by
  simp only [check_stock_logic, hscan]
  rw [if_neg hstat, hfind]

/-- C1: an `Out` trigger breaks the scan immediately (the result does not
depend on later rules), the scan starting from the initial state lands on
the first rule whose trigger is out of stock, and in the two-rule instance
with a `Low` first trigger and an `Out` second trigger the result is `Out`
or a substitution built from a rule matching the second trigger, never one
derived from the first. -/
theorem scan_out_precedence (inv : Inventory) (item : MenuCandidate) :
    (∀ (sub : SubRule) (rest : List SubRule) (st : String × Option String),
      is_out inv sub.trigger_ingredient = true →
      scanTriggers inv (sub :: rest) st = ("Out of Stock", sub.trigger_ingredient)) ∧
    (∀ r : SubRule,
      item.suggested_substitutions.find? (fun s => is_out inv s.trigger_ingredient) = some r →
      scanTriggers inv item.suggested_substitutions ("In Stock", none) =
        ("Out of Stock", r.trigger_ingredient)) ∧
    (∀ rA rB : SubRule, item.suggested_substitutions = [rA, rB] →
      is_out inv rA.trigger_ingredient = false →
      is_low inv rA.trigger_ingredient = true →
      is_out inv rB.trigger_ingredient = true →
      (check_stock_logic inv item).availability_status = "Out of Stock" ∨
        ((check_stock_logic inv item).availability_status = "Substituted" ∧
          ∃ r ∈ item.suggested_substitutions,
            r.trigger_ingredient = rB.trigger_ingredient ∧
            r.trigger_ingredient ≠ rA.trigger_ingredient ∧
            (check_stock_logic inv item).substitution = some
              { original_item := item.name
                suggested_item := pyFormat r.suggest_item_name
                reason := r.rag_justification.getD "Better availability" })) := by
  refine ⟨fun sub rest st h => scanTriggers_break inv sub rest st h,
    fun r h => scanTriggers_find_out inv item.suggested_substitutions _ r h, ?_⟩
  intro rA rB hsubs houtA hlowA houtB
  have hne : rA.trigger_ingredient ≠ rB.trigger_ingredient := by
    intro hEq
    rw [hEq, houtB] at houtA
    exact absurd houtA (by decide)
  have hfindOut :
      item.suggested_substitutions.find? (fun s => is_out inv s.trigger_ingredient) = some rB := by
    rw [hsubs]
    simp [List.find?_cons, houtA, houtB]
  have hscan := scanTriggers_find_out inv item.suggested_substitutions ("In Stock", none) rB hfindOut
  have hfindB :
      item.suggested_substitutions.find?
        (fun sub => sub.trigger_ingredient = rB.trigger_ingredient) = some rB := by
    rw [hsubs]
    simp [List.find?_cons, hne]
  have hcheck := check_stock_eq_subst inv item "Out of Stock" rB.trigger_ingredient rB hscan
    (by decide) hfindB
  right
  refine ⟨by rw [hcheck], rB, ?_, rfl, fun hEq => hne hEq.symm, by rw [hcheck]⟩
  rw [hsubs]
  exact List.mem_cons_of_mem rA (List.mem_cons_self rB [])

def invAB : Inventory := ⟨[("Lettuce", 5), ("Beef", 0)], []⟩

def ruleLettuce : SubRule := ⟨some "Lettuce", some "Cabbage Slaw", none⟩

def ruleBeef : SubRule := ⟨some "Beef", some "Chicken", some "protein swap"⟩

def itemAB : MenuCandidate :=
  ⟨"m1", "Burger", "A burger", 10, 1, [ruleLettuce, ruleBeef], none, "In Stock"⟩

/-- Concrete instantiation of `scan_out_precedence`: Lettuce is low, Beef is
out, and the resolver's answer for the two-rule item never derives from the
Lettuce rule. -/
theorem scan_out_precedence_witness :
    (check_stock_logic invAB itemAB).availability_status = "Out of Stock" ∨
      ((check_stock_logic invAB itemAB).availability_status = "Substituted" ∧
        ∃ r ∈ itemAB.suggested_substitutions,
          r.trigger_ingredient = ruleBeef.trigger_ingredient ∧
          r.trigger_ingredient ≠ ruleLettuce.trigger_ingredient ∧
          (check_stock_logic invAB itemAB).substitution = some
            { original_item := itemAB.name
              suggested_item := pyFormat r.suggest_item_name
              reason := r.rag_justification.getD "Better availability" }) :=
  (scan_out_precedence invAB itemAB).2.2 ruleLettuce ruleBeef rfl
    (by decide) (by decide) (by decide)

/-- C2: when the scan remembers a triggering ingredient and some rule's
trigger equals it, the resolver outputs `Substituted`, the suggestion names
the suggested item of the first matching rule (in stored order), and the
reason is that rule's justification, defaulting to the generic string when
none is supplied. -/
theorem substitution_first_match (inv : Inventory) (item : MenuCandidate)
    (status : String) (act : Option String) (r : SubRule)
    (hscan : scanTriggers inv item.suggested_substitutions ("In Stock", none) = (status, act))
    (hstat : status ≠ "In Stock")
    (hfind : item.suggested_substitutions.find? (fun sub => sub.trigger_ingredient = act) = some r) :
    (check_stock_logic inv item).availability_status = "Substituted" ∧
    (check_stock_logic inv item).substitution = some
      { original_item := item.name
        suggested_item := pyFormat r.suggest_item_name
        reason := r.rag_justification.getD "Better availability" } := by
  rw [check_stock_eq_subst inv item status act r hscan hstat hfind]
  exact ⟨rfl, rfl⟩

def invSalad : Inventory := ⟨[("Lettuce", 5)], []⟩

def itemSalad : MenuCandidate :=
  ⟨"m2", "Salad", "A salad", 8, 1, [⟨some "Lettuce", some "Cabbage Slaw", none⟩], none, "In Stock"⟩

/-- Concrete instantiation of `substitution_first_match`: Lettuce is low,
the single rule matches, the suggestion is Cabbage Slaw and the reason falls
back to the generic justification string. -/
theorem substitution_first_match_witness :
    (check_stock_logic invSalad itemSalad).availability_status = "Substituted" ∧
    (check_stock_logic invSalad itemSalad).substitution = some
      { original_item := itemSalad.name
        suggested_item := pyFormat (some "Cabbage Slaw")
        reason := "Better availability" } :=
  substitution_first_match invSalad itemSalad "Low Stock" (some "Lettuce")
    ⟨some "Lettuce", some "Cabbage Slaw", none⟩ (by decide) (by decide) (by decide)

/-- Helper: a scan ending in a bad status remembered a trigger drawn from
the rule list itself, so the second scan finds a matching rule. -/
theorem scan_bad_find_some (inv : Inventory) (item : MenuCandidate)
    (status : String) (act : Option String)
    (hscan : scanTriggers inv item.suggested_substitutions ("In Stock", none) = (status, act))
    (hs : status ≠ "In Stock") :
    ∃ r, item.suggested_substitutions.find? (fun sub => sub.trigger_ingredient = act) = some r := by
  have hmem : ∃ sub ∈ item.suggested_substitutions, act = sub.trigger_ingredient := by
    rcases scanTriggers_eq_or_mem inv item.suggested_substitutions ("In Stock", none) with
      hEq | ⟨s, hsmem, h2⟩
    · rw [hscan] at hEq
      exact absurd (congrArg Prod.fst hEq) hs
    · rw [hscan] at h2
      exact ⟨s, hsmem, h2⟩
  obtain ⟨s, hsmem, hact⟩ := hmem
  have hsome :
      (item.suggested_substitutions.find? (fun sub => sub.trigger_ingredient = act)).isSome := by
    rw [List.find?_isSome]
    exact ⟨s, hsmem, by simp [hact]⟩
  exact Option.isSome_iff_exists.mp hsome

/-- Helper: on an input marked `"In Stock"` (as all parsed candidates are),
the resolver outputs either `"In Stock"` or `"Substituted"`, and in the
latter case a non-null substitution. -/
theorem check_stock_avail (inv : Inventory) (item : MenuCandidate)
    (h : item.availability_status = "In Stock") :
    (check_stock_logic inv item).availability_status = "In Stock" ∨
      ((check_stock_logic inv item).availability_status = "Substituted" ∧
        (check_stock_logic inv item).substitution ≠ none) := by
  rcases hscan : scanTriggers inv item.suggested_substitutions ("In Stock", none) with ⟨status, act⟩
  by_cases hs : status = "In Stock"
  · left
    subst hs
    simp only [check_stock_logic, hscan, if_true]
    exact h
  · obtain ⟨r, hr⟩ := scan_bad_find_some inv item status act hscan hs
    right
    rw [check_stock_eq_subst inv item status act r hscan hs hr]
    exact ⟨rfl, by simp⟩

/-- C10: whenever the first scan records a bad status the second scan finds
a matching rule and the result is `Substituted`; consequently a candidate
entering the resolver as `"In Stock"` leaves as `"In Stock"` or
`"Substituted"`, never `"Low Stock"` or `"Out of Stock"`, and the patron
flow's out-of-stock filter removes nothing. -/
theorem fallback_unreachable (inv : Inventory) (hits : List RawMenuHit) (item : MenuCandidate) :
    (∀ (status : String) (act : Option String),
      scanTriggers inv item.suggested_substitutions ("In Stock", none) = (status, act) →
      status ≠ "In Stock" →
      (∃ r, item.suggested_substitutions.find? (fun sub => sub.trigger_ingredient = act) = some r) ∧
        (check_stock_logic inv item).availability_status = "Substituted") ∧
    (item.availability_status = "In Stock" →
      (check_stock_logic inv item).availability_status = "In Stock" ∨
        (check_stock_logic inv item).availability_status = "Substituted") ∧
    (((find_menu_candidates hits).map (check_stock_logic inv)).filter
        (fun i => i.availability_status ≠ "Out of Stock") =
      (find_menu_candidates hits).map (check_stock_logic inv)) := by
  refine ⟨?_, ?_, ?_⟩
  · intro status act hscan hs
    obtain ⟨r, hr⟩ := scan_bad_find_some inv item status act hscan hs
    refine ⟨⟨r, hr⟩, ?_⟩
    rw [check_stock_eq_subst inv item status act r hscan hs hr]
  · intro h
    rcases check_stock_avail inv item h with h1 | ⟨h1, _⟩
    · exact Or.inl h1
    · exact Or.inr h1
  · rw [List.filter_eq_self]
    intro a ha
    rw [List.mem_map] at ha
    obtain ⟨c, hc, rfl⟩ := ha
    rw [find_menu_candidates, List.mem_map] at hc
    obtain ⟨hit, _, rfl⟩ := hc
    rcases check_stock_avail inv (parseCandidate hit) rfl with h1 | ⟨h1, _⟩ <;>
      rw [decide_eq_true_eq, h1] <;> decide

/-- Concrete instantiation of `fallback_unreachable`: a candidate with a low
first trigger and an out second trigger still resolves to `In Stock` or
`Substituted`. -/
theorem fallback_unreachable_witness :
    (check_stock_logic invAB itemAB).availability_status = "In Stock" ∨
      (check_stock_logic invAB itemAB).availability_status = "Substituted" :=
  (fallback_unreachable invAB [] itemAB).2.1 rfl

/-- C9: on a candidate entering as `"In Stock"`, the resolver assigns
`"Out of Stock"` only when no rule matches the remembered trigger, and a
`"Substituted"` result always carries a non-null substitution. -/
theorem resolver_invariant (inv : Inventory) (item : MenuCandidate)
    (h : item.availability_status = "In Stock") :
    ((check_stock_logic inv item).availability_status = "Out of Stock" →
      item.suggested_substitutions.find? (fun sub =>
        sub.trigger_ingredient =
          (scanTriggers inv item.suggested_substitutions ("In Stock", none)).2) = none) ∧
    ((check_stock_logic inv item).availability_status = "Substituted" →
      (check_stock_logic inv item).substitution ≠ none) := by
  rcases check_stock_avail inv item h with h1 | ⟨h1, h2⟩
  · refine ⟨fun hbad => ?_, fun hbad => ?_⟩
    · rw [h1] at hbad
      exact absurd hbad (by decide)
    · rw [h1] at hbad
      exact absurd hbad (by decide)
  · refine ⟨fun hbad => ?_, fun _ => h2⟩
    rw [h1] at hbad
    exact absurd hbad (by decide)

/-- Concrete instantiation of `resolver_invariant`: the substituted Salad
carries a non-null substitution. -/
theorem resolver_invariant_witness :
    (check_stock_logic invSalad itemSalad).substitution ≠ none :=
  (resolver_invariant invSalad itemSalad rfl).2 (by decide)

/-- The raw hit used in patron-flow witnesses: the Salad with one Lettuce
rule. -/
def saladHit : RawMenuHit :=
  ⟨"m2", "Salad", "A salad", 8, 1, [⟨some "Lettuce", some "Cabbage Slaw", none⟩]⟩

/-- C8: no result of `patron_search` carries availability `"Out of Stock"`,
and the out-of-stock drop happens on the resolved candidates before ranking
and projection. -/
theorem patron_filter_no_out (inv : Inventory) (hits : List RawMenuHit) :
    (∀ res ∈ patron_search inv hits, res.availability_status ≠ "Out of Stock") ∧
    patron_search inv hits =
      (rank_results (((find_menu_candidates hits).map (check_stock_logic inv)).filter
        (fun item => item.availability_status ≠ "Out of Stock"))).map toMenuItemResult := by
  refine ⟨?_, rfl⟩
  intro res hres
  simp only [patron_search] at hres
  rw [List.mem_map] at hres
  obtain ⟨c, hc, rfl⟩ := hres
  have hc2 := (List.Perm.mem_iff (List.perm_insertionSort keyLe _)).mp hc
  have hkeep := (List.mem_filter.mp hc2).2
  rw [decide_eq_true_eq] at hkeep
  exact hkeep

/-- Concrete instantiation of `patron_filter_no_out` at the Salad query. -/
theorem patron_filter_no_out_witness :
    (toMenuItemResult (check_stock_logic invSalad (parseCandidate saladHit))).availability_status ≠
      "Out of Stock" :=
  (patron_filter_no_out invSalad [saladHit]).1
    (toMenuItemResult (check_stock_logic invSalad (parseCandidate saladHit))) (by decide)

def invBeef : Inventory := ⟨[("Beef", 0)], []⟩

def burgerHit : RawMenuHit := ⟨"m3", "Burger", "Beef patty burger", 10, 1, []⟩

/-- C3 counterexample: ingredient Beef is tracked at quantity 0 (hence out),
the Burger carries no substitution rule referencing Beef, and yet the Burger
is NOT excluded from the patron response — it is returned, marked In Stock. -/
theorem burger_not_excluded :
    is_out invBeef (some "Beef") = true ∧
    burgerHit.suggested_substitutions = [] ∧
    (patron_search invBeef [burgerHit]).map MenuItemResult.name = ["Burger"] ∧
    (patron_search invBeef [burgerHit]).map MenuItemResult.availability_status = ["In Stock"] := by
  decide

/-- C3 amended: an out-of-stock ingredient affects a menu item only through
substitution rules that name it as a trigger; an item none of whose rules
trigger (in particular one with no rule referencing the out ingredient) is
returned in the patron response with availability `"In Stock"`, not
excluded. -/
theorem unreferenced_out_ingredient_included (inv : Inventory) (hits : List RawMenuHit)
    (r : RawMenuHit) (hmem : r ∈ hits)
    (hsafe : ∀ s ∈ r.suggested_substitutions,
      is_out inv s.trigger_ingredient = false ∧ is_low inv s.trigger_ingredient = false) :
    toMenuItemResult (parseCandidate r) ∈ patron_search inv hits ∧
    (toMenuItemResult (parseCandidate r)).availability_status = "In Stock" := by
  have hscan2 : scanTriggers inv (parseCandidate r).suggested_substitutions ("In Stock", none) =
      ("In Stock", none) :=
    scanTriggers_all_clear inv r.suggested_substitutions ("In Stock", none) hsafe
  have hcheck : check_stock_logic inv (parseCandidate r) = parseCandidate r := by
    simp [check_stock_logic, hscan2]
  have h1 : check_stock_logic inv (parseCandidate r) ∈
      (find_menu_candidates hits).map (check_stock_logic inv) :=
    List.mem_map_of_mem (check_stock_logic inv) (List.mem_map_of_mem parseCandidate hmem)
  rw [hcheck] at h1
  have h2 : parseCandidate r ∈ ((find_menu_candidates hits).map (check_stock_logic inv)).filter
      (fun item => item.availability_status ≠ "Out of Stock") :=
    List.mem_filter.mpr ⟨h1, by simp [parseCandidate]⟩
  have h3 : parseCandidate r ∈ rank_results (((find_menu_candidates hits).map
      (check_stock_logic inv)).filter (fun item => item.availability_status ≠ "Out of Stock")) :=
    (List.Perm.mem_iff (List.perm_insertionSort keyLe _)).mpr h2
  exact ⟨List.mem_map_of_mem toMenuItemResult h3, rfl⟩

/-- Concrete instantiation of `unreferenced_out_ingredient_included` at the
Beef/Burger scenario. -/
theorem unreferenced_out_ingredient_included_witness :
    toMenuItemResult (parseCandidate burgerHit) ∈ patron_search invBeef [burgerHit] ∧
    (toMenuItemResult (parseCandidate burgerHit)).availability_status = "In Stock" :=
  unreferenced_out_ingredient_included invBeef [burgerHit] burgerHit
    (List.mem_cons_self burgerHit []) (by simp [burgerHit])

/-- C7: `rank_results` permutes its input, sorts it by the lexicographic key
(availability tier first, with the tier numbering of the source table, then
relevance score ascending), and is stable: two candidates with identical
sort keys appearing in order in the input appear in the same order in the
output. -/
theorem rank_results_stable_sort (items : List MenuCandidate) :
    (rank_results items).Perm items ∧
    List.Sorted keyLe (rank_results items) ∧
    status_priority "In Stock" = 0 ∧ status_priority "Substituted" = 1 ∧
    status_priority "Low Stock" = 2 ∧ status_priority "Out of Stock" = 3 ∧
    (∀ a b : MenuCandidate, List.Sublist [a, b] items → sort_key a = sort_key b →
      List.Sublist [a, b] (rank_results items)) := by
  refine ⟨List.perm_insertionSort keyLe items, List.sorted_insertionSort keyLe items,
    rfl, rfl, rfl, rfl, ?_⟩
  intro a b hsub hkey
  exact List.pair_sublist_insertionSort
    (Or.inr ⟨congrArg Prod.fst hkey, le_of_eq (congrArg Prod.snd hkey)⟩) hsub

def candA : MenuCandidate := ⟨"a", "A", "first", 5, 2, [], none, "In Stock"⟩

def candB : MenuCandidate := ⟨"b", "B", "second", 6, 2, [], none, "In Stock"⟩

/-- Concrete instantiation of `rank_results_stable_sort`: two candidates
with identical tier and score keep their original relative order. -/
theorem rank_results_stable_sort_witness :
    List.Sublist [candA, candB] (rank_results [candA, candB]) :=
  (rank_results_stable_sort [candA, candB]).2.2.2.2.2.2 candA candB
    (List.Sublist.refl [candA, candB]) (by decide)

/-! Helper lemmas for the inventory aggregation. -/

theorem dictGet_dictSet (k n : String) (v : ℚ) (d : List (String × ℚ)) :
    dictGet n (dictSet k v d) = if k = n then some v else dictGet n d := by
  induction d with
  | nil => simp [dictGet, dictSet]
  | cons p rest ih =>
    obtain ⟨k₁, v₁⟩ := p
    by_cases h1 : k₁ = k
    · subst h1
      by_cases h2 : k₁ = n
      · subst h2
        simp [dictGet, dictSet]
      · simp [dictGet, dictSet, h2]
    · by_cases h2 : k₁ = n
      · subst h2
        simp [dictGet, dictSet, h1, Ne.symm h1]
      · simp [dictGet, dictSet, h1, h2, ih]

theorem expired_match_iff (hasExpCol : Bool) (today : ℤ) (row : LotRow) :
    (hasExpCol ∧ (match row.expParse with
        | some d => decide (d < today) | none => false) = true) ↔
      (hasExpCol ∧ ∃ d, row.expParse = some d ∧ d < today) := by
  cases h : row.expParse <;> simp [h]

theorem reloadStep_get (hasExpCol : Bool) (today : ℤ) (n : String)
    (acc : List (String × ℚ)) (row : LotRow) :
    (dictGet n (reloadStep hasExpCol today acc row)).getD 0 =
      (dictGet n acc).getD 0 + specContribution hasExpCol today n row := by
  by_cases hex : hasExpCol ∧ (match row.expParse with
      | some d => decide (d < today) | none => false) = true
  · have hex2 := (expired_match_iff hasExpCol today row).mp hex
    simp [reloadStep, hex, specContribution, hex2]
  · have hex2 : ¬(hasExpCol ∧ ∃ d, row.expParse = some d ∧ d < today) :=
      fun hc => hex ((expired_match_iff hasExpCol today row).mpr hc)
    cases hq : row.qty with
    | none => simp [reloadStep, hex, hq, specContribution]
    | some q =>
      by_cases hn : row.name = n
      · subst hn
        simp [reloadStep, hex, hq, specContribution, hex2, dictGet_dictSet]
      · simp [reloadStep, hex, hq, specContribution, hn, dictGet_dictSet]

theorem reload_foldl (hasExpCol : Bool) (today : ℤ) (n : String) (rows : List LotRow) :
    ∀ acc : List (String × ℚ),
      (dictGet n (rows.foldl (reloadStep hasExpCol today) acc)).getD 0 =
        (dictGet n acc).getD 0 + specAggregate hasExpCol today rows n := by
  induction rows with
  | nil => intro acc; simp [specAggregate]
  | cons row rest ih =>
    intro acc
    rw [List.foldl_cons, ih, reloadStep_get]
    have hagg : specAggregate hasExpCol today (row :: rest) n =
        specContribution hasExpCol today n row + specAggregate hasExpCol today rest n := by
      simp [specAggregate]
    rw [hagg, add_assoc]

/-- C6: after a reload, the stored quantity of each ingredient is the sum of
the quantities of its lot rows, a lot being excluded exactly when the
expiration column exists, the date parsed, and it is strictly before the
as-of day (so a date of yesterday is excluded, today or any later day is
included, an unparseable date is included), and a row whose quantity fails
to parse contributes nothing without aborting the rest of the load. -/
theorem reload_inventory_aggregates (hasExpCol : Bool) (today : ℤ)
    (rows : List LotRow) (n : String) :
    (dictGet n (reload_inventory hasExpCol today rows)).getD 0 =
      specAggregate hasExpCol today rows n ∧
    (∀ row : LotRow, hasExpCol = true → row.expParse = some (today - 1) →
      specContribution hasExpCol today n row = 0) ∧
    (∀ (row : LotRow) (d : ℤ), row.expParse = some d → today ≤ d → row.name = n →
      specContribution hasExpCol today n row = row.qty.getD 0) ∧
    (∀ row : LotRow, row.expParse = none → row.name = n →
      specContribution hasExpCol today n row = row.qty.getD 0) ∧
    (∀ row : LotRow, row.qty = none → specContribution hasExpCol today n row = 0) := by
  refine ⟨?_, ?_, ?_, ?_, ?_⟩
  · rw [reload_inventory, reload_foldl]
    simp [dictGet]
  · intro row hcol hexp
    simp [specContribution, hexp, hcol]
  · intro row d hexp hle hn
    have hnotlt : ¬d < today := not_lt.mpr hle
    simp [specContribution, hexp, hn, hnotlt]
  · intro row hexp hn
    simp [specContribution, hexp, hn]
  · intro row hq
    simp [specContribution, hq]

def lotYesterday : LotRow := ⟨"Tomato", some 5, some 99⟩

def lotToday : LotRow := ⟨"Tomato", some 7, some 100⟩

def lotBadQty : LotRow := ⟨"Tomato", none, none⟩

def lotNoDate : LotRow := ⟨"Basil", some 2, none⟩

/-- Concrete instantiation of `reload_inventory_aggregates` with as-of day
100: the lot expiring on day 99 is excluded, the lot expiring on day 100 is
included, a dateless lot is included, a non-numeric quantity contributes
nothing. -/
theorem reload_inventory_aggregates_witness :
    specContribution true 100 "Tomato" lotYesterday = 0 ∧
    specContribution true 100 "Tomato" lotToday = (some (7 : ℚ)).getD 0 ∧
    specContribution true 100 "Basil" lotNoDate = (some (2 : ℚ)).getD 0 ∧
    specContribution true 100 "Tomato" lotBadQty = 0 ∧
    (dictGet "Tomato" (reload_inventory true 100 [lotYesterday, lotToday, lotBadQty, lotNoDate])).getD 0 =
      specAggregate true 100 [lotYesterday, lotToday, lotBadQty, lotNoDate] "Tomato" :=
  ⟨(reload_inventory_aggregates true 100 [] "Tomato").2.1 lotYesterday rfl (by decide),
   (reload_inventory_aggregates true 100 [] "Tomato").2.2.1 lotToday 100 rfl (by decide) rfl,
   (reload_inventory_aggregates true 100 [] "Basil").2.2.2.1 lotNoDate rfl rfl,
   (reload_inventory_aggregates true 100 [] "Tomato").2.2.2.2 lotBadQty rfl,
   (reload_inventory_aggregates true 100 [lotYesterday, lotToday, lotBadQty, lotNoDate] "Tomato").1⟩

/-- Helper: the ingestion script writes CamelCase metadata keys, so the
snake_case lookup of the inventory endpoint finds nothing. -/
theorem metaGet_ingest_name (r : InvCsvRow) :
    metaGet "ingredient_name" (ingestMeta r) = none := by
  simp [ingestMeta, metaGet]

/-- C4 (code bug): for any nonempty ingested lot list, the full-listing
endpoint fails — `ingest_inventory` stores metadata under CamelCase keys
while `get_inventory` reads snake_case keys, so every record's name resolves
to Python `None`, and constructing the first `InventorySearchResult` raises
a validation error instead of listing every tracked ingredient. -/
theorem get_inventory_metadata_key_mismatch (inv : Inventory) (rows : List InvCsvRow)
    (h : rows ≠ []) :
    get_inventory inv (rows.map ingestMeta) = none := by
  cases rows with
  | nil => exact absurd rfl h
  | cons r rest =>
    rw [List.map_cons]
    show getInventoryLoop inv (ingestMeta r :: rest.map ingestMeta) [] [] = none
    simp [getInventoryLoop, metaGet_ingest_name r, mkInventorySearchResult]

def csvRowW : InvCsvRow := ⟨"L1", "Tomato", "Produce", 5, "kg", "12/31/2026"⟩

/-- Concrete instantiation of `get_inventory_metadata_key_mismatch`: a
single healthy Tomato lot still makes the endpoint fail. -/
theorem get_inventory_metadata_key_mismatch_witness :
    get_inventory ⟨[("Tomato", 5)], []⟩ ([csvRowW].map ingestMeta) = none :=
  get_inventory_metadata_key_mismatch ⟨[("Tomato", 5)], []⟩ [csvRowW] (by decide)

end IngredientApp
